import Mathlib

/-!
Verification of the OPBSX option-pricing engine.

This file gives a shallow embedding of the numerical/algorithmic core of the
repository — the Black-Scholes pricing routine (`src/utils/black_scholes.py`),
the calculation workflow (`src/core/calculations.py`), the persistence wrappers
(`src/core/db_setup.py`), the heatmap surface sweep (`src/core/plotting.py`)
and the history reconstruction (`src/core/history.py`) — and proves or refutes
the specification claims about them.

Numbers are modelled as exact rationals.  The external math routines
(`numpy.log/sqrt/exp`, `scipy.stats.norm.cdf/pdf`) are collaborators outside
the repository, so they are modelled as an abstract record of functions
(`NumKernel`); theorems that need particular values of those routines take
them as hypotheses.  The MySQL transport is modelled as a store value
(`DbState`) whose `failing` flag says whether `DBHandler.execute` raises.
-/

/-- Abstract model of the external math routines used by the source:
`numpy.log`, `numpy.sqrt`, `numpy.exp` and `scipy.stats.norm.cdf` /
`scipy.stats.norm.pdf`. -/
structure NumKernel where
  log : ℚ → ℚ
  sqrt : ℚ → ℚ
  exp : ℚ → ℚ
  cdf : ℚ → ℚ
  pdf : ℚ → ℚ

/-- Result attributes stored by `BlackScholes.run` (`black_scholes.py`,
lines 54-60). -/
structure BSResult where
  call_price : ℚ
  put_price : ℚ
  call_delta : ℚ
  put_delta : ℚ
  call_gamma : ℚ
  put_gamma : ℚ
deriving DecidableEq

/-- Local `d1` of `BlackScholes.run` (`black_scholes.py`, line 42):
`d1 = (log(S / K) + (r + 0.5 * sigma ** 2) * T) / (sigma * sqrt(T))`. -/
def bs_d1 (lib : NumKernel) (T K S sigma r : ℚ) : ℚ :=
  (lib.log (S / K) + (r + 0.5 * sigma ^ 2) * T) / (sigma * lib.sqrt T)

/-- Local `d2` of `BlackScholes.run` (`black_scholes.py`, line 43):
`d2 = d1 - sigma * sqrt(T)`. -/
def bs_d2 (lib : NumKernel) (T K S sigma r : ℚ) : ℚ :=
  bs_d1 lib T K S sigma r - sigma * lib.sqrt T

/-- The body of `BlackScholes.run` (`black_scholes.py`, lines 30-60), with the
constructor arguments `time_to_maturity, strike, current_price, volatility,
interest_rate` passed directly. -/
def BlackScholes.run (lib : NumKernel)
    (time_to_maturity strike current_price volatility interest_rate : ℚ) :
    BSResult :=
  let T := time_to_maturity
  let K := strike
  let S := current_price
  let sigma := volatility
  let r := interest_rate
  let d1 := bs_d1 lib T K S sigma r
  let d2 := bs_d2 lib T K S sigma r
  let call_price := S * lib.cdf d1 - K * lib.exp (-r * T) * lib.cdf d2
  let put_price := K * lib.exp (-r * T) * lib.cdf (-d2) - S * lib.cdf (-d1)
  let call_delta := lib.cdf d1
  let put_delta := call_delta - 1
  let gamma := lib.pdf d1 / (S * sigma * lib.sqrt T)
  { call_price := call_price
    put_price := put_price
    call_delta := call_delta
    put_delta := put_delta
    call_gamma := gamma
    put_gamma := gamma }

/-- Modelled from the spec: the stated equation
`d1 = (ln(spot/strike) + (rate + 0.5*volatility^2) * time_to_maturity) /
(volatility * sqrt(time_to_maturity))`. -/
def specD1 (lib : NumKernel) (time_to_maturity strike spot volatility rate : ℚ) : ℚ :=
  (lib.log (spot / strike) + (rate + 0.5 * volatility ^ 2) * time_to_maturity) /
    (volatility * lib.sqrt time_to_maturity)

/-- Modelled from the spec: `d2 = d1 - volatility * sqrt(time_to_maturity)`. -/
def specD2 (lib : NumKernel) (time_to_maturity strike spot volatility rate : ℚ) : ℚ :=
  specD1 lib time_to_maturity strike spot volatility rate -
    volatility * lib.sqrt time_to_maturity

/-- Modelled from the spec:
`call_price = spot * N(d1) - strike * exp(-rate*time_to_maturity) * N(d2)`. -/
def specCallPrice (lib : NumKernel) (time_to_maturity strike spot volatility rate : ℚ) : ℚ :=
  spot * lib.cdf (specD1 lib time_to_maturity strike spot volatility rate) -
    strike * lib.exp (-(rate * time_to_maturity)) *
      lib.cdf (specD2 lib time_to_maturity strike spot volatility rate)

/-- Modelled from the spec:
`put_price = strike * exp(-rate*time_to_maturity) * N(-d2) - spot * N(-d1)`. -/
def specPutPrice (lib : NumKernel) (time_to_maturity strike spot volatility rate : ℚ) : ℚ :=
  strike * lib.exp (-(rate * time_to_maturity)) *
      lib.cdf (-specD2 lib time_to_maturity strike spot volatility rate) -
    spot * lib.cdf (-specD1 lib time_to_maturity strike spot volatility rate)

/-- Modelled from the spec: `call_delta = N(d1)`. -/
def specCallDelta (lib : NumKernel) (time_to_maturity strike spot volatility rate : ℚ) : ℚ :=
  lib.cdf (specD1 lib time_to_maturity strike spot volatility rate)

/-- Modelled from the spec:
`gamma = n(d1) / (spot * volatility * sqrt(time_to_maturity))`. -/
def specGamma (lib : NumKernel) (time_to_maturity strike spot volatility rate : ℚ) : ℚ :=
  lib.pdf (specD1 lib time_to_maturity strike spot volatility rate) /
    (spot * volatility * lib.sqrt time_to_maturity)

/-- Row of the `option_pricing` table (`db_setup.py`, lines 17-27). -/
structure InputRow where
  calcId : ℕ
  currentPrice : ℚ
  strikePrice : ℚ
  timeToMaturity : ℚ
  volatility : ℚ
  rate : ℚ
deriving DecidableEq

/-- Row of the `heatmap_data` table (`db_setup.py`, lines 29-39). -/
structure HeatRow where
  calcId : ℕ
  spot : ℚ
  vol : ℚ
  callPrice : ℚ
  putPrice : ℚ
deriving DecidableEq

/-- One `(spot, volatility, call_price, put_price)` surface sample, as produced
by the sweep in `plotting.py` (line 121) and read back in `history.py`
(line 49). -/
structure Sample where
  spot : ℚ
  vol : ℚ
  call : ℚ
  put : ℚ
deriving DecidableEq

/-- State of the MySQL store behind `DBHandler`.  `failing = true` models the
transport being down, in which case `DBHandler.execute` raises
`mysql.connector.Error` (`utils/db.py`, lines 55-73). -/
structure DbState where
  failing : Bool
  nextId : ℕ
  inputRows : List InputRow
  heatRows : List HeatRow
deriving DecidableEq

/-- Model of `db.execute(insert_query, params)` for the `option_pricing`
INSERT: raises on transport failure, otherwise commits the row and returns
`cursor.lastrowid`. -/
def dbInsertInput (db : DbState) (s k t v r : ℚ) : Except String (ℕ × DbState) :=
  if db.failing then Except.error "transport failure"
  else Except.ok (db.nextId,
    { db with
      nextId := db.nextId + 1
      inputRows := db.inputRows ++ [⟨db.nextId, s, k, t, v, r⟩] })

/-- The `insert_input_record` wrapper (`db_setup.py`, lines 53-84): on success
returns the fresh `calc_id`; on `mysql.connector.Error` it shows an error
dialog and returns `None` — the exception is not re-raised. -/
def insert_input_record (db : DbState) (s k t v r : ℚ) : DbState × Option ℕ :=
  match dbInsertInput db s k t v r with
  | Except.ok (cid, db') => (db', some cid)
  | Except.error _ => (db, none)

/-- Model of `db.execute(insert_query, params, many=True)` for the
`heatmap_data` INSERT: raises on transport failure, otherwise commits all
rows. -/
def dbInsertHeatRows (db : DbState) (rows : List HeatRow) : Except String DbState :=
  if db.failing then Except.error "transport failure"
  else Except.ok { db with heatRows := db.heatRows ++ rows }

/-- The `insert_heatmap_records` wrapper (`db_setup.py`, lines 86-110): bulk
inserts all samples for `calc_id`; on `mysql.connector.Error` it shows an
error dialog and returns normally — the exception is swallowed. -/
def insert_heatmap_records (db : DbState) (calcId : ℕ) (data : List Sample) : DbState :=
  match dbInsertHeatRows db
      (data.map fun r => ⟨calcId, r.spot, r.vol, r.call, r.put⟩) with
  | Except.ok db' => db'
  | Except.error _ => db

/-- The `calculate_option_prices` workflow (`calculations.py`, lines 41-131),
after the Tkinter string variables have been parsed to numbers (string
parsing is outside the core).  Any exception raised inside the `try` block is
caught and shown via `messagebox.showerror`, modelled as the `Except.error`
result.  Note the order of operations: only `ttm` and `vol` are validated,
then the input row is inserted, then the Black-Scholes model runs. -/
def calculate_option_prices (lib : NumKernel) (db : DbState)
    (current_price strike ttm vol rate : ℚ) :
    DbState × Except String (Option ℕ × BSResult) :=
  if ttm ≤ 0 then (db, Except.error "Time to maturity must be > 0")
  else if vol ≤ 0 then (db, Except.error "Volatility must be > 0")
  else
    let ins := insert_input_record db current_price strike ttm vol rate
    (ins.1, Except.ok (ins.2, BlackScholes.run lib ttm strike current_price vol rate))

/-- Model of `np.linspace(lo, hi, n)` (`plotting.py`, lines 93-94): `n` evenly
spaced values, `lo + i * (hi - lo) / (n - 1)`. -/
def linspace (lo hi : ℚ) (n : ℕ) : List ℚ :=
  (List.range n).map fun i : ℕ => lo + (i : ℚ) * (hi - lo) / ((n : ℚ) - 1)

/-- The call-price matrix of the sweep (`plotting.py`, lines 103-120):
rows indexed by volatility, columns by spot. -/
def callMatrix (lib : NumKernel) (strike ttm rate : ℚ) (spots vols : List ℚ) :
    List (List ℚ) :=
  vols.map fun v => spots.map fun s =>
    (BlackScholes.run lib ttm strike s v rate).call_price

/-- The put-price matrix of the sweep (`plotting.py`, lines 103-120). -/
def putMatrix (lib : NumKernel) (strike ttm rate : ℚ) (spots vols : List ℚ) :
    List (List ℚ) :=
  vols.map fun v => spots.map fun s =>
    (BlackScholes.run lib ttm strike s v rate).put_price

/-- One entry of `save_records` (`plotting.py`, line 121). -/
def mkSample (lib : NumKernel) (strike ttm rate s v : ℚ) : Sample :=
  { spot := s
    vol := v
    call := (BlackScholes.run lib ttm strike s v rate).call_price
    put := (BlackScholes.run lib ttm strike s v rate).put_price }

/-- The flat `save_records` list of the sweep, in the row-major order it is
computed (`plotting.py`, lines 103-121): outer loop over volatilities, inner
loop over spots. -/
def heatSamples (lib : NumKernel) (strike ttm rate : ℚ) (spots vols : List ℚ) :
    List Sample :=
  vols.flatMap fun v => spots.map fun s => mkSample lib strike ttm rate s v

/-- Outcome of `plot_heatmaps`: early return when no calculation id exists
yet, an error dialog (`messagebox.showerror`) for any exception raised in the
`try` block, or a drawn surface. -/
inductive HeatmapOutcome where
  | noCalcId : HeatmapOutcome
  | failure : String → HeatmapOutcome
  | plotted : List ℚ → List ℚ → List (List ℚ) → List (List ℚ) → HeatmapOutcome
deriving DecidableEq

/-- The `plot_heatmaps` workflow (`plotting.py`, lines 38-225), after string
parsing.  The four optional range arguments are `None` when the corresponding
entry field is empty, in which case the base-derived defaults of lines 76-79
are used.  Validations mirror lines 64-89 in order; on success the heatmap
rows are inserted (line 124) and the matrices plotted. -/
def plot_heatmaps (lib : NumKernel) (db : DbState) (calcId : Option ℕ) (n : ℕ)
    (baseSpot strike ttm baseVol rate : ℚ)
    (spotMinOpt spotMaxOpt volMinOpt volMaxOpt : Option ℚ) :
    DbState × HeatmapOutcome :=
  match calcId with
  | none => (db, HeatmapOutcome.noCalcId)
  | some cid =>
    if n < 2 then (db, HeatmapOutcome.failure "Resolution must be at least 2")
    else
      let spotMin := spotMinOpt.getD (baseSpot * 0.8)
      let spotMax := spotMaxOpt.getD (baseSpot * 1.2)
      let volMin := volMinOpt.getD (max 0.01 (baseVol * 0.5))
      let volMax := volMaxOpt.getD (min 5.0 (baseVol * 1.5))
      if spotMin ≤ 0 ∨ spotMax ≤ 0 then
        (db, HeatmapOutcome.failure "Spot ranges must be > 0")
      else if spotMax ≤ spotMin then
        (db, HeatmapOutcome.failure "Max Spot must be greater than Min Spot")
      else if volMin ≤ 0 ∨ volMax ≤ 0 then
        (db, HeatmapOutcome.failure "Vol ranges must be > 0")
      else if volMax ≤ volMin then
        (db, HeatmapOutcome.failure "Max Vol must be greater than Min Vol")
      else
        let spots := linspace spotMin spotMax n
        let vols := linspace volMin volMax n
        let db' := insert_heatmap_records db cid (heatSamples lib strike ttm rate spots vols)
        (db', HeatmapOutcome.plotted spots vols
          (callMatrix lib strike ttm rate spots vols)
          (putMatrix lib strike ttm rate spots vols))

/-- Write `x` at position `n` of a list; out of range leaves the list
unchanged (index maps in the source always hit existing cells). -/
def listSet {α : Type} : List α → ℕ → α → List α
  | [], _, _ => []
  | _ :: l, 0, x => x :: l
  | a :: l, n + 1, x => a :: listSet l n x

/-- Apply `f` to the element at position `n` of a list. -/
def modifyRow {α : Type} (f : α → α) : ℕ → List α → List α
  | _, [] => []
  | 0, a :: l => f a :: l
  | n + 1, a :: l => a :: modifyRow f n l

/-- Write value `x` into cell `(i, j)` of a matrix of optional values,
modelling `call_prices[i, j] = c` (`history.py`, lines 69-70). -/
def setCell (m : List (List (Option ℚ))) (i j : ℕ) (x : ℚ) :
    List (List (Option ℚ)) :=
  modifyRow (fun row => listSet row j (some x)) i m

/-- Read cell `(i, j)` of a matrix represented as a list of rows. -/
def cellGet {α : Type} (m : List (List α)) (i j : ℕ) : Option α :=
  (m.get? i).bind fun row => row.get? j

/-- Matrix of `np.nan` placeholders, modelling
`np.full((n_vol, n_spot), np.nan)` (`history.py`, lines 59-60); `none` is the
missing-value marker. -/
def emptyMatrix (rows cols : ℕ) : List (List (Option ℚ)) :=
  List.replicate rows (List.replicate cols none)

/-- Model of `sorted(set(column))` (`history.py`, lines 54-55). -/
def sortedDistinct (l : List ℚ) : List ℚ :=
  List.insertionSort (· ≤ ·) l.dedup

/-- The axes reconstructed from stored samples (`history.py`, lines 54-55):
sorted distinct spot values and sorted distinct volatility values. -/
def reconAxes (rows : List Sample) : List ℚ × List ℚ :=
  (sortedDistinct (rows.map Sample.spot), sortedDistinct (rows.map Sample.vol))

/-- One step of the fill loop (`history.py`, lines 65-70): write the sample's
call and put prices at the axis-index cell of the two matrices. -/
def reconStep (spots vols : List ℚ)
    (mm : List (List (Option ℚ)) × List (List (Option ℚ))) (r : Sample) :
    List (List (Option ℚ)) × List (List (Option ℚ)) :=
  (setCell mm.1 (List.indexOf r.vol vols) (List.indexOf r.spot spots) r.call,
   setCell mm.2 (List.indexOf r.vol vols) (List.indexOf r.spot spots) r.put)

/-- The fill loop of `_on_history_load` (`history.py`, lines 59-70): start
from nan matrices sized `len(vols) × len(spots)` and write every sample at
its `(vol_to_idx, spot_to_idx)` cell. -/
def reconMatrices (spots vols : List ℚ) (rows : List Sample) :
    List (List (Option ℚ)) × List (List (Option ℚ)) :=
  rows.foldl (reconStep spots vols)
    (emptyMatrix vols.length spots.length, emptyMatrix vols.length spots.length)

/-- Result of reconstructing a surface from stored samples. -/
structure ReconResult where
  spots : List ℚ
  vols : List ℚ
  callM : List (List (Option ℚ))
  putM : List (List (Option ℚ))
deriving DecidableEq

/-- The reconstruction performed by `_on_history_load` (`history.py`,
lines 54-70). -/
def reconstruct (rows : List Sample) : ReconResult :=
  { spots := (reconAxes rows).1
    vols := (reconAxes rows).2
    callM := (reconMatrices (reconAxes rows).1 (reconAxes rows).2 rows).1
    putM := (reconMatrices (reconAxes rows).1 (reconAxes rows).2 rows).2 }

/-- Outcome of `_on_history_load` for a selected calculation id:
`noData` models the `messagebox.showinfo("No data", ...)` early return of
lines 50-52 (an informational dialog followed by a plain `return`);
`loadError` models the `except` branch of lines 168-170
(`messagebox.showerror`), which fires only when an exception is raised; and
`plotted` is the success path. -/
inductive HistoryOutcome where
  | noData : HistoryOutcome
  | loadError : String → HistoryOutcome
  | plotted : ReconResult → HistoryOutcome
deriving DecidableEq

/-- Whether a history-load outcome is the error-dialog (raised exception)
path. -/
def isLoadError : HistoryOutcome → Bool
  | HistoryOutcome.loadError _ => true
  | _ => false

/-- The data path of `_on_history_load` (`history.py`, lines 49-70) given the
rows fetched for the selected calculation: empty result shows the
informational "No data" box and returns; otherwise the surface is rebuilt and
plotted. -/
def onHistoryLoad (rows : List Sample) : HistoryOutcome :=
  if rows = [] then HistoryOutcome.noData
  else HistoryOutcome.plotted (reconstruct rows)

/-- Concrete kernel used to instantiate theorems with hypotheses: it takes the
reference values of the normal cdf/pdf at the points needed by the
at-the-money scenario. -/
def witKernel : NumKernel where
  log := fun _ => 0
  sqrt := fun _ => 1
  exp := fun _ => 0.951229
  cdf := fun x =>
    if x = 7/20 then 0.636831
    else if x = 3/20 then 0.559618
    else if x = -(3/20) then 0.440382
    else if x = -(7/20) then 0.363169
    else 0
  pdf := fun _ => 0.37524

/-- Concrete kernel whose cdf is symmetric (`N(-x) = 1 - N(x)`), used to
instantiate the put-call parity theorem. -/
def symKernel : NumKernel where
  log := fun _ => 0
  sqrt := fun _ => 1
  exp := fun _ => 1
  cdf := fun _ => 1/2
  pdf := fun _ => 0

/-- A healthy store with no rows and next auto-increment id 1. -/
def okDb : DbState :=
  { failing := false, nextId := 1, inputRows := [], heatRows := [] }

/-- A store whose transport is down: every `execute` raises. -/
def failDb : DbState :=
  { failing := true, nextId := 1, inputRows := [], heatRows := [] }

theorem run_call_price (lib : NumKernel) (T K S sigma r : ℚ) :
    (BlackScholes.run lib T K S sigma r).call_price =
      S * lib.cdf (bs_d1 lib T K S sigma r) -
        K * lib.exp (-r * T) * lib.cdf (bs_d2 lib T K S sigma r) := rfl

theorem run_put_price (lib : NumKernel) (T K S sigma r : ℚ) :
    (BlackScholes.run lib T K S sigma r).put_price =
      K * lib.exp (-r * T) * lib.cdf (-bs_d2 lib T K S sigma r) -
        S * lib.cdf (-bs_d1 lib T K S sigma r) := rfl

theorem run_call_delta (lib : NumKernel) (T K S sigma r : ℚ) :
    (BlackScholes.run lib T K S sigma r).call_delta =
      lib.cdf (bs_d1 lib T K S sigma r) := rfl

theorem run_put_delta (lib : NumKernel) (T K S sigma r : ℚ) :
    (BlackScholes.run lib T K S sigma r).put_delta =
      lib.cdf (bs_d1 lib T K S sigma r) - 1 := rfl

theorem run_call_gamma (lib : NumKernel) (T K S sigma r : ℚ) :
    (BlackScholes.run lib T K S sigma r).call_gamma =
      lib.pdf (bs_d1 lib T K S sigma r) / (S * sigma * lib.sqrt T) := rfl

/-- C8: for all valid inputs the pricing outputs satisfy
`put_delta = call_delta - 1` exactly; both are derived from the same `d1`
(`black_scholes.py`, lines 50-51). -/
theorem c8_put_delta_relation (lib : NumKernel) (T K S sigma r : ℚ)
    (hS : 0 < S) (hK : 0 < K) (hT : 0 < T) (hsigma : 0 < sigma) :
    (BlackScholes.run lib T K S sigma r).put_delta =
      (BlackScholes.run lib T K S sigma r).call_delta - 1 := rfl

theorem c8_witness :
    (BlackScholes.run witKernel 1 100 100 0.2 0.05).put_delta =
      (BlackScholes.run witKernel 1 100 100 0.2 0.05).call_delta - 1 :=
  c8_put_delta_relation witKernel 1 100 100 0.2 0.05 (by norm_num) (by norm_num)
    (by norm_num) (by norm_num)

/-- C9: when the caller supplies no explicit ranges, `plot_heatmaps` behaves
exactly as if called with spot range
`[0.8 * base_spot, 1.2 * base_spot]` and volatility range
`[max(0.01, 0.5 * base_vol), min(5.0, 1.5 * base_vol)]`
(`plotting.py`, lines 76-79). -/
theorem c9_default_ranges (lib : NumKernel) (db : DbState) (calcId : Option ℕ)
    (n : ℕ) (baseSpot strike ttm baseVol rate : ℚ) :
    plot_heatmaps lib db calcId n baseSpot strike ttm baseVol rate
        none none none none =
      plot_heatmaps lib db calcId n baseSpot strike ttm baseVol rate
        (some (baseSpot * 0.8)) (some (baseSpot * 1.2))
        (some (max 0.01 (baseVol * 0.5))) (some (min 5.0 (baseVol * 1.5))) := by
  cases calcId <;> rfl

/-- C3 counterexample: on transport failure `insert_input_record` does not
propagate a `StorageError` — it returns `None` (a non-identifier) with the
store unchanged — and `insert_heatmap_records` swallows the error entirely
(`db_setup.py`, lines 82-84 and 109-110). -/
theorem c3_storage_error_swallowed :
    insert_input_record failDb 100 100 1 0.2 0.05 = (failDb, none) ∧
      insert_heatmap_records failDb 1 [⟨100, 0.2, 10.45, 5.57⟩] = failDb := by
  constructor <;> rfl

/-- C3 amended: on transport failure the wrappers never raise to the caller:
`insert_input_record` shows an error dialog and returns `None` instead of a
calc id, and `insert_heatmap_records` shows an error dialog and leaves the
store unchanged.  No halfway write occurs in either case. -/
theorem c3_transport_failure_behavior (db : DbState)
    (s k t v r : ℚ) (cid : ℕ) (data : List Sample)
    (hfail : db.failing = true) :
    insert_input_record db s k t v r = (db, none) ∧
      insert_heatmap_records db cid data = db := by
  constructor
  · simp [insert_input_record, dbInsertInput, hfail]
  · simp [insert_heatmap_records, dbInsertHeatRows, hfail]

theorem c3_witness :
    insert_input_record failDb 1 1 1 1 1 = (failDb, none) ∧
      insert_heatmap_records failDb 2 [⟨1, 1, 1, 1⟩] = failDb :=
  c3_transport_failure_behavior failDb 1 1 1 1 1 2 [⟨1, 1, 1, 1⟩] rfl

/-- C4 counterexample: reconstruction with zero samples does not raise an
`EmptyDataError` — `_on_history_load` shows the informational
`messagebox.showinfo("No data", ...)` box and returns normally
(`history.py`, lines 50-52), which is not the error path of lines 168-170. -/
theorem c4_empty_samples_info_not_error :
    onHistoryLoad [] = HistoryOutcome.noData ∧
      isLoadError (onHistoryLoad []) = false := by
  constructor <;> rfl

/-- C4 amended: with an empty sample list `_on_history_load` takes the
informational no-data early return — producing no matrices — and it takes
that path exactly when the sample list is empty; no error is raised. -/
theorem c4_noData_iff_empty (rows : List Sample) :
    (onHistoryLoad rows = HistoryOutcome.noData ↔ rows = []) ∧
      isLoadError (onHistoryLoad rows) = false := by
  constructor
  · constructor
    · intro h
      by_contra hne
      simp [onHistoryLoad, hne] at h
    · intro h
      simp [onHistoryLoad, h]
  · by_cases h : rows = [] <;> simp [onHistoryLoad, h, isLoadError]

/-- C2 counterexample: a violated `spot > 0` invariant is not rejected.  With
`current_price = -100` (and valid ttm/vol), `calculate_option_prices` raises
no error: it inserts the calculation row into the store and computes a price
(`calculations.py` validates only `ttm` and `vol`, lines 78-81). -/
theorem c2_spot_invariant_not_checked :
    (calculate_option_prices witKernel okDb (-100) 100 1 0.2 0.05).2 =
        Except.ok (some 1, BlackScholes.run witKernel 1 100 (-100) 0.2 0.05) ∧
      (calculate_option_prices witKernel okDb (-100) 100 1 0.2 0.05).1.inputRows =
        [⟨1, -100, 100, 1, 0.2, 0.05⟩] := by
  have ht : ¬((1 : ℚ) ≤ 0) := by norm_num
  have hv : ¬((0.2 : ℚ) ≤ 0) := by norm_num
  constructor
  · simp only [calculate_option_prices, if_neg ht, if_neg hv]
    rfl
  · simp only [calculate_option_prices, if_neg ht, if_neg hv]
    rfl

/-- C2 amended: only the `time_to_maturity > 0` and `volatility > 0`
invariants are enforced; their violation is surfaced as an error naming the
offending field (but not its value) before any computation or persistence —
the store is left unchanged.  Non-positive `spot` or `strike` passes
validation (see the counterexample). -/
theorem c2_ttm_vol_checked_before_persistence (lib : NumKernel) (db : DbState)
    (s k t v r : ℚ) :
    (t ≤ 0 →
      calculate_option_prices lib db s k t v r =
        (db, Except.error "Time to maturity must be > 0")) ∧
    (0 < t → v ≤ 0 →
      calculate_option_prices lib db s k t v r =
        (db, Except.error "Volatility must be > 0")) := by
  constructor
  · intro ht
    simp [calculate_option_prices, if_pos ht]
  · intro ht hv
    simp [calculate_option_prices, if_neg (not_le.mpr ht), if_pos hv]

theorem c2_witness :
    calculate_option_prices witKernel okDb 100 100 (-1) 0.2 0.05 =
        (okDb, Except.error "Time to maturity must be > 0") ∧
      calculate_option_prices witKernel okDb 100 100 1 (-0.2) 0.05 =
        (okDb, Except.error "Volatility must be > 0") :=
  ⟨(c2_ttm_vol_checked_before_persistence witKernel okDb 100 100 (-1) 0.2 0.05).1
      (by norm_num),
   (c2_ttm_vol_checked_before_persistence witKernel okDb 100 100 1 (-0.2) 0.05).2
      (by norm_num) (by norm_num)⟩

/-- C7: put-call parity.  Under the exact-real semantics of the normal cdf
(`N(-x) = 1 - N(x)`), for all valid inputs the computed prices satisfy
`call_price - put_price = spot - strike * exp(-rate * ttm)` exactly
(`black_scholes.py`, lines 46-47), hence in particular within any
floating-point tolerance. -/
theorem c7_put_call_parity (lib : NumKernel)
    (hsym : ∀ x, lib.cdf (-x) = 1 - lib.cdf x)
    (T K S sigma r : ℚ) (hS : 0 < S) (hK : 0 < K) (hT : 0 < T)
    (hsigma : 0 < sigma) :
    (BlackScholes.run lib T K S sigma r).call_price -
        (BlackScholes.run lib T K S sigma r).put_price =
      S - K * lib.exp (-(r * T)) := by
  rw [run_call_price, run_put_price, hsym, hsym,
    show (-r * T : ℚ) = -(r * T) by ring]
  ring

theorem c7_witness :
    (BlackScholes.run symKernel 1 100 100 0.2 0.05).call_price -
        (BlackScholes.run symKernel 1 100 100 0.2 0.05).put_price =
      100 - 100 * symKernel.exp (-(0.05 * 1)) :=
  c7_put_call_parity symKernel
    (fun x => by simp [symKernel]; norm_num) 1 100 100 0.2 0.05
    (by norm_num) (by norm_num) (by norm_num) (by norm_num)

/-- C10: for any base input with `base_vol ≥ 10` and no caller-supplied
volatility range (with the spot range — defaulted or explicit — passing its
own checks and `n ≥ 2`), the defaulted volatility range collapses:
`min(5.0, 1.5 * base_vol) = 5 ≤ max(0.01, 0.5 * base_vol)`, so
`plot_heatmaps` fails with the inverted-range error of `plotting.py`
line 89 and the store receives no sample rows. -/
theorem c10_defaulted_vol_range_collapse (lib : NumKernel) (db : DbState)
    (cid : ℕ) (n : ℕ) (baseSpot strike ttm baseVol rate : ℚ)
    (spotMinOpt spotMaxOpt : Option ℚ)
    (hn : 2 ≤ n) (hvol : 10 ≤ baseVol)
    (hsm : 0 < spotMinOpt.getD (baseSpot * 0.8))
    (hsM : 0 < spotMaxOpt.getD (baseSpot * 1.2))
    (hss : spotMinOpt.getD (baseSpot * 0.8) < spotMaxOpt.getD (baseSpot * 1.2)) :
    plot_heatmaps lib db (some cid) n baseSpot strike ttm baseVol rate
        spotMinOpt spotMaxOpt none none =
      (db, HeatmapOutcome.failure "Max Vol must be greater than Min Vol") := by
  have hvmin : (max 0.01 (baseVol * 0.5) : ℚ) = baseVol * 0.5 :=
    max_eq_right (by nlinarith)
  have hvmax : (min 5.0 (baseVol * 1.5) : ℚ) = 5.0 :=
    min_eq_left (by nlinarith)
  simp only [plot_heatmaps, Option.getD_none, if_neg (Nat.not_lt.mpr hn), hvmin, hvmax]
  rw [if_neg, if_neg (not_le.mpr hss), if_neg, if_pos]
  · nlinarith
  · push_neg
    constructor <;> nlinarith
  · push_neg
    exact ⟨hsm, hsM⟩

theorem c10_witness :
    plot_heatmaps witKernel okDb (some 1) 2 100 100 1 10 0.05
        none none none none =
      (okDb, HeatmapOutcome.failure "Max Vol must be greater than Min Vol") :=
  c10_defaulted_vol_range_collapse witKernel okDb 1 2 100 100 1 10 0.05
    none none (by norm_num) (by norm_num) (by norm_num) (by norm_num) (by norm_num)

/-- C1: for every input satisfying the invariants, `BlackScholes.run` computes
`d1`, `d2`, `call_price`, `put_price`, `call_delta` and `gamma` exactly by
the Black-Scholes-Merton equations stated in the spec; and, given the
reference values of the external normal cdf/pdf and exponential at the points
the at-the-money scenario needs (`Phi(0.35), Phi(0.15), Phi(-0.15),
Phi(-0.35), e^(-0.05), phi(0.35)`), the scenario
`spot=100, strike=100, ttm=1, vol=0.2, rate=0.05` yields
`call_price ~ 10.4506`, `put_price ~ 5.5735`, `call_delta ~ 0.6368` and
`gamma ~ 0.0188`. -/
theorem c1_pricing_equations_and_reference_scenario (lib : NumKernel)
    (hlog : lib.log 1 = 0) (hsqrt : lib.sqrt 1 = 1)
    (hexp : |lib.exp (-(1/20)) - 0.951229| ≤ 1/100000)
    (hc1 : |lib.cdf (7/20) - 0.636831| ≤ 1/100000)
    (hc2 : |lib.cdf (3/20) - 0.559618| ≤ 1/100000)
    (hc3 : |lib.cdf (-(3/20)) - 0.440382| ≤ 1/100000)
    (hc4 : |lib.cdf (-(7/20)) - 0.363169| ≤ 1/100000)
    (hpdf : |lib.pdf (7/20) - 0.37524| ≤ 1/100000) :
    (∀ T K S sigma r : ℚ, 0 < S → 0 < K → 0 < T → 0 < sigma →
      bs_d1 lib T K S sigma r = specD1 lib T K S sigma r ∧
      bs_d2 lib T K S sigma r = specD2 lib T K S sigma r ∧
      (BlackScholes.run lib T K S sigma r).call_price = specCallPrice lib T K S sigma r ∧
      (BlackScholes.run lib T K S sigma r).put_price = specPutPrice lib T K S sigma r ∧
      (BlackScholes.run lib T K S sigma r).call_delta = specCallDelta lib T K S sigma r ∧
      (BlackScholes.run lib T K S sigma r).call_gamma = specGamma lib T K S sigma r) ∧
    (|(BlackScholes.run lib 1 100 100 0.2 0.05).call_price - 10.4506| ≤ 1/200 ∧
     |(BlackScholes.run lib 1 100 100 0.2 0.05).put_price - 5.5735| ≤ 1/200 ∧
     |(BlackScholes.run lib 1 100 100 0.2 0.05).call_delta - 0.6368| ≤ 1/10000 ∧
     |(BlackScholes.run lib 1 100 100 0.2 0.05).call_gamma - 0.0188| ≤ 1/10000) := by
  constructor
  · intro T K S sigma r hS hK hT hsig
    refine ⟨rfl, rfl, ?_, ?_, rfl, rfl⟩
    · rw [run_call_price, show (-r * T : ℚ) = -(r * T) by ring]
      rfl
    · rw [run_put_price, show (-r * T : ℚ) = -(r * T) by ring]
      rfl
  · have hd1 : bs_d1 lib 1 100 100 0.2 0.05 = 7/20 := by
      simp only [bs_d1]
      rw [show (100 : ℚ) / 100 = 1 by norm_num, hlog, hsqrt]
      norm_num
    have hd2 : bs_d2 lib 1 100 100 0.2 0.05 = 3/20 := by
      simp only [bs_d2]
      rw [hd1, hsqrt]
      norm_num
    have harg : (-(0.05 : ℚ) * 1) = -(1/20) := by norm_num
    rw [abs_le] at hexp hc1 hc2 hc3 hc4 hpdf
    have hEnn : (0 : ℚ) ≤ lib.exp (-(1/20)) := by linarith [hexp.1]
    have hC2nn : (0 : ℚ) ≤ lib.cdf (3/20) := by linarith [hc2.1]
    have hC3nn : (0 : ℚ) ≤ lib.cdf (-(3/20)) := by linarith [hc3.1]
    have hPl : (0.951219 * 0.559608 : ℚ) ≤ lib.exp (-(1/20)) * lib.cdf (3/20) :=
      mul_le_mul (by linarith [hexp.1]) (by linarith [hc2.1]) (by norm_num) hEnn
    have hPu : lib.exp (-(1/20)) * lib.cdf (3/20) ≤ (0.951239 * 0.559628 : ℚ) :=
      mul_le_mul (by linarith [hexp.2]) (by linarith [hc2.2]) hC2nn (by norm_num)
    have hQl : (0.951219 * 0.440372 : ℚ) ≤ lib.exp (-(1/20)) * lib.cdf (-(3/20)) :=
      mul_le_mul (by linarith [hexp.1]) (by linarith [hc3.1]) (by norm_num) hEnn
    have hQu : lib.exp (-(1/20)) * lib.cdf (-(3/20)) ≤ (0.951239 * 0.440392 : ℚ) :=
      mul_le_mul (by linarith [hexp.2]) (by linarith [hc3.2]) hC3nn (by norm_num)
    refine ⟨?_, ?_, ?_, ?_⟩
    · rw [run_call_price, hd1, hd2, harg, abs_le]
      constructor <;> linarith [hc1.1, hc1.2, hPl, hPu]
    · rw [run_put_price, hd1, hd2, harg, abs_le]
      constructor <;> linarith [hc4.1, hc4.2, hQl, hQu]
    · rw [run_call_delta, hd1, abs_le]
      constructor <;> linarith [hc1.1, hc1.2]
    · rw [run_call_gamma, hd1, hsqrt, abs_le]
      constructor <;> linarith [hpdf.1, hpdf.2]

theorem c1_scenario_witness :
    |(BlackScholes.run witKernel 1 100 100 0.2 0.05).call_price - 10.4506| ≤ 1/200 ∧
    |(BlackScholes.run witKernel 1 100 100 0.2 0.05).put_price - 5.5735| ≤ 1/200 ∧
    |(BlackScholes.run witKernel 1 100 100 0.2 0.05).call_delta - 0.6368| ≤ 1/10000 ∧
    |(BlackScholes.run witKernel 1 100 100 0.2 0.05).call_gamma - 0.0188| ≤ 1/10000 :=
  (c1_pricing_equations_and_reference_scenario witKernel rfl rfl
    (by norm_num [witKernel]) (by norm_num [witKernel]) (by norm_num [witKernel])
    (by norm_num [witKernel]) (by norm_num [witKernel]) (by norm_num [witKernel])).2

theorem length_linspace (lo hi : ℚ) (n : ℕ) : (linspace lo hi n).length = n := by
  simp only [linspace, List.length_map, List.length_range]

theorem linspace_get? (lo hi : ℚ) (n i : ℕ) (h : i < n) :
    (linspace lo hi n).get? i = some (lo + (i : ℚ) * (hi - lo) / ((n : ℚ) - 1)) := by
  simp only [linspace, List.get?_eq_getElem?, List.getElem?_map, List.getElem?_range, h,
    if_pos, Option.map_some']

theorem sorted_linspace (lo hi : ℚ) (n : ℕ) (hn : 2 ≤ n) (h : lo < hi) :
    List.Sorted (· < ·) (linspace lo hi n) := by
  have hden : (0 : ℚ) < (n : ℚ) - 1 := by
    have : (2 : ℚ) ≤ (n : ℚ) := by exact_mod_cast hn
    linarith
  have hstep : (0 : ℚ) < (hi - lo) / ((n : ℚ) - 1) := div_pos (by linarith) hden
  have key : ∀ x y : ℚ, x < y →
      lo + x * (hi - lo) / ((n : ℚ) - 1) < lo + y * (hi - lo) / ((n : ℚ) - 1) := by
    intro x y hxy
    have := mul_lt_mul_of_pos_right hxy hstep
    rw [mul_div_assoc, mul_div_assoc]
    linarith
  exact List.Pairwise.map _ (fun a b hab => key (a : ℚ) (b : ℚ) (by exact_mod_cast hab))
    (List.pairwise_lt_range n)

theorem callMatrix_length (lib : NumKernel) (strike ttm rate : ℚ)
    (spots vols : List ℚ) :
    (callMatrix lib strike ttm rate spots vols).length = vols.length := by
  simp [callMatrix]

theorem putMatrix_length (lib : NumKernel) (strike ttm rate : ℚ)
    (spots vols : List ℚ) :
    (putMatrix lib strike ttm rate spots vols).length = vols.length := by
  simp [putMatrix]

theorem callMatrix_rows (lib : NumKernel) (strike ttm rate : ℚ)
    (spots vols : List ℚ) (row : List ℚ)
    (hrow : row ∈ callMatrix lib strike ttm rate spots vols) :
    row.length = spots.length := by
  simp only [callMatrix, List.mem_map] at hrow
  obtain ⟨v, -, rfl⟩ := hrow
  simp

theorem putMatrix_rows (lib : NumKernel) (strike ttm rate : ℚ)
    (spots vols : List ℚ) (row : List ℚ)
    (hrow : row ∈ putMatrix lib strike ttm rate spots vols) :
    row.length = spots.length := by
  simp only [putMatrix, List.mem_map] at hrow
  obtain ⟨v, -, rfl⟩ := hrow
  simp

theorem callMatrix_cell (lib : NumKernel) (strike ttm rate : ℚ)
    (spots vols : List ℚ) (i j : ℕ) (vi sj : ℚ)
    (hv : vols.get? i = some vi) (hs : spots.get? j = some sj) :
    cellGet (callMatrix lib strike ttm rate spots vols) i j =
      some ((BlackScholes.run lib ttm strike sj vi rate).call_price) := by
  rw [List.get?_eq_getElem?] at hv hs
  simp [callMatrix, cellGet, List.get?_eq_getElem?, List.getElem?_map, hv, hs]

theorem putMatrix_cell (lib : NumKernel) (strike ttm rate : ℚ)
    (spots vols : List ℚ) (i j : ℕ) (vi sj : ℚ)
    (hv : vols.get? i = some vi) (hs : spots.get? j = some sj) :
    cellGet (putMatrix lib strike ttm rate spots vols) i j =
      some ((BlackScholes.run lib ttm strike sj vi rate).put_price) := by
  rw [List.get?_eq_getElem?] at hv hs
  simp [putMatrix, cellGet, List.get?_eq_getElem?, List.getElem?_map, hv, hs]

theorem plot_heatmaps_valid (lib : NumKernel) (db : DbState) (cid : ℕ) (n : ℕ)
    (baseSpot strike ttm baseVol rate a b c d : ℚ)
    (hn : 2 ≤ n) (ha : 0 < a) (hab : a < b) (hc : 0 < c) (hcd : c < d) :
    plot_heatmaps lib db (some cid) n baseSpot strike ttm baseVol rate
        (some a) (some b) (some c) (some d) =
      (insert_heatmap_records db cid
          (heatSamples lib strike ttm rate (linspace a b n) (linspace c d n)),
        HeatmapOutcome.plotted (linspace a b n) (linspace c d n)
          (callMatrix lib strike ttm rate (linspace a b n) (linspace c d n))
          (putMatrix lib strike ttm rate (linspace a b n) (linspace c d n))) := by
  simp only [plot_heatmaps, Option.getD_some]
  rw [if_neg (Nat.not_lt.mpr hn), if_neg, if_neg (not_le.mpr hab), if_neg,
    if_neg (not_le.mpr hcd)]
  · push_neg
    exact ⟨hc, hcd.trans_le' hc.le⟩
  · push_neg
    exact ⟨ha, hab.trans_le' ha.le⟩

/-- C5: with resolution `n ≥ 2` and valid explicit ranges, the sweep produces
`n × n` call and put matrices and two strictly increasing axes of length `n`
with `axis[i] = min + i * (max - min) / (n - 1)`; every matrix cell `(i, j)`
(row = volatility index, column = spot index) holds the `BlackScholes.run`
price at `(spots[j], vols[i])` with the base strike, maturity and rate
(`plotting.py`, lines 93-121). -/
theorem c5_surface_grid_shape_and_cells (lib : NumKernel) (db : DbState)
    (cid : ℕ) (n : ℕ) (baseSpot strike ttm baseVol rate a b c d : ℚ)
    (hn : 2 ≤ n) (ha : 0 < a) (hab : a < b) (hc : 0 < c) (hcd : c < d) :
    ∃ spots vols callM putM,
      (plot_heatmaps lib db (some cid) n baseSpot strike ttm baseVol rate
          (some a) (some b) (some c) (some d)).2 =
        HeatmapOutcome.plotted spots vols callM putM ∧
      spots.length = n ∧ vols.length = n ∧
      List.Sorted (· < ·) spots ∧ List.Sorted (· < ·) vols ∧
      (∀ i, i < n → spots.get? i = some (a + (i : ℚ) * (b - a) / ((n : ℚ) - 1))) ∧
      (∀ i, i < n → vols.get? i = some (c + (i : ℚ) * (d - c) / ((n : ℚ) - 1))) ∧
      callM.length = n ∧ putM.length = n ∧
      (∀ row ∈ callM, row.length = n) ∧ (∀ row ∈ putM, row.length = n) ∧
      (∀ i j vi sj, vols.get? i = some vi → spots.get? j = some sj →
        cellGet callM i j =
            some ((BlackScholes.run lib ttm strike sj vi rate).call_price) ∧
          cellGet putM i j =
            some ((BlackScholes.run lib ttm strike sj vi rate).put_price)) := by
  refine ⟨linspace a b n, linspace c d n,
    callMatrix lib strike ttm rate (linspace a b n) (linspace c d n),
    putMatrix lib strike ttm rate (linspace a b n) (linspace c d n),
    ?_, length_linspace a b n, length_linspace c d n,
    sorted_linspace a b n hn hab, sorted_linspace c d n hn hcd,
    fun i hi => linspace_get? a b n i hi,
    fun i hi => linspace_get? c d n i hi,
    ?_, ?_, ?_, ?_, ?_⟩
  · rw [plot_heatmaps_valid lib db cid n baseSpot strike ttm baseVol rate a b c d
      hn ha hab hc hcd]
  · rw [callMatrix_length, length_linspace]
  · rw [putMatrix_length, length_linspace]
  · intro row hrow
    rw [callMatrix_rows lib strike ttm rate _ _ row hrow, length_linspace]
  · intro row hrow
    rw [putMatrix_rows lib strike ttm rate _ _ row hrow, length_linspace]
  · intro i j vi sj hv hs
    exact ⟨callMatrix_cell lib strike ttm rate _ _ i j vi sj hv hs,
      putMatrix_cell lib strike ttm rate _ _ i j vi sj hv hs⟩

theorem c5_witness :
    ∃ spots vols callM putM,
      (plot_heatmaps witKernel okDb (some 1) 2 100 100 1 0.2 0.05
          (some 80) (some 120) (some (1/10)) (some (3/10))).2 =
        HeatmapOutcome.plotted spots vols callM putM ∧
      spots.length = 2 ∧ vols.length = 2 ∧
      List.Sorted (· < ·) spots ∧ List.Sorted (· < ·) vols ∧
      (∀ i, i < 2 → spots.get? i =
        some (80 + (i : ℚ) * (120 - 80) / ((2 : ℚ) - 1))) ∧
      (∀ i, i < 2 → vols.get? i =
        some (1/10 + (i : ℚ) * (3/10 - 1/10) / ((2 : ℚ) - 1))) ∧
      callM.length = 2 ∧ putM.length = 2 ∧
      (∀ row ∈ callM, row.length = 2) ∧ (∀ row ∈ putM, row.length = 2) ∧
      (∀ i j vi sj, vols.get? i = some vi → spots.get? j = some sj →
        cellGet callM i j =
            some ((BlackScholes.run witKernel 1 100 sj vi 0.05).call_price) ∧
          cellGet putM i j =
            some ((BlackScholes.run witKernel 1 100 sj vi 0.05).put_price)) :=
  c5_surface_grid_shape_and_cells witKernel okDb 1 2 100 100 1 0.2 0.05
    80 120 (1/10) (3/10) (by norm_num) (by norm_num) (by norm_num)
    (by norm_num) (by norm_num)

theorem listSet_length {α : Type} (l : List α) (n : ℕ) (x : α) :
    (listSet l n x).length = l.length := by
  induction l generalizing n with
  | nil => rfl
  | cons a l ih =>
    cases n with
    | zero => rfl
    | succ m => simpa [listSet] using ih m

theorem listSet_get?_eq {α : Type} (l : List α) (n : ℕ) (x : α) (h : n < l.length) :
    (listSet l n x).get? n = some x := by
  induction l generalizing n with
  | nil => simp at h
  | cons a l ih =>
    cases n with
    | zero => rfl
    | succ m => simpa [listSet] using ih m (by simpa using h)

theorem listSet_get?_ne {α : Type} (l : List α) (n k : ℕ) (x : α) (h : n ≠ k) :
    (listSet l n x).get? k = l.get? k := by
  induction l generalizing n k with
  | nil => rfl
  | cons a l ih =>
    cases n with
    | zero =>
      cases k with
      | zero => exact absurd rfl h
      | succ kk => rfl
    | succ m =>
      cases k with
      | zero => rfl
      | succ kk => simpa [listSet] using ih m kk (fun hh => h (by rw [hh]))

theorem modifyRow_length {α : Type} (f : α → α) (n : ℕ) (l : List α) :
    (modifyRow f n l).length = l.length := by
  induction l generalizing n with
  | nil => cases n <;> rfl
  | cons a l ih =>
    cases n with
    | zero => rfl
    | succ m => simpa [modifyRow] using ih m

theorem modifyRow_get?_eq {α : Type} (f : α → α) (n : ℕ) (l : List α) :
    (modifyRow f n l).get? n = (l.get? n).map f := by
  induction l generalizing n with
  | nil => simp [modifyRow]
  | cons a l ih =>
    cases n with
    | zero => rfl
    | succ m => simpa [modifyRow] using ih m

theorem modifyRow_get?_ne {α : Type} (f : α → α) (n k : ℕ) (l : List α) (h : n ≠ k) :
    (modifyRow f n l).get? k = l.get? k := by
  induction l generalizing n k with
  | nil => cases n <;> rfl
  | cons a l ih =>
    cases n with
    | zero =>
      cases k with
      | zero => exact absurd rfl h
      | succ kk => rfl
    | succ m =>
      cases k with
      | zero => rfl
      | succ kk => simpa [modifyRow] using ih m kk (fun hh => h (by rw [hh]))

theorem mem_modifyRow {α : Type} (f : α → α) (n : ℕ) (l : List α) (x : α)
    (h : x ∈ modifyRow f n l) : x ∈ l ∨ ∃ y ∈ l, x = f y := by
  induction l generalizing n with
  | nil => simp [modifyRow] at h
  | cons a l ih =>
    cases n with
    | zero =>
      rcases List.mem_cons.mp h with rfl | hx
      · exact Or.inr ⟨a, List.mem_cons_self a l, rfl⟩
      · exact Or.inl (List.mem_cons_of_mem a hx)
    | succ m =>
      rcases List.mem_cons.mp h with rfl | hx
      · exact Or.inl (List.mem_cons_self x l)
      · rcases ih m hx with h' | ⟨y, hy, rfl⟩
        · exact Or.inl (List.mem_cons_of_mem a h')
        · exact Or.inr ⟨y, List.mem_cons_of_mem a hy, rfl⟩

theorem setCell_length (m : List (List (Option ℚ))) (i j : ℕ) (x : ℚ) :
    (setCell m i j x).length = m.length := modifyRow_length _ i m

theorem setCell_rows (m : List (List (Option ℚ))) (i j : ℕ) (x : ℚ) (M : ℕ)
    (hrow : ∀ row ∈ m, row.length = M) :
    ∀ row ∈ setCell m i j x, row.length = M := by
  intro row h
  rcases mem_modifyRow _ i m row h with h' | ⟨r, hr, rfl⟩
  · exact hrow row h'
  · rw [listSet_length]
    exact hrow r hr

theorem cellGet_setCell_eq (m : List (List (Option ℚ))) (i j : ℕ) (x : ℚ)
    (hi : i < m.length) (hj : ∀ row ∈ m, j < row.length) :
    cellGet (setCell m i j x) i j = some (some x) := by
  have hrow : m.get? i = some (m.get ⟨i, hi⟩) := List.get?_eq_get hi
  unfold cellGet setCell
  rw [modifyRow_get?_eq, hrow]
  simp only [Option.map_some', Option.some_bind]
  exact listSet_get?_eq _ j (some x) (hj _ (List.get_mem m i hi))

theorem cellGet_setCell_ne (m : List (List (Option ℚ))) (i j i' j' : ℕ) (x : ℚ)
    (h : ¬(i = i' ∧ j = j')) :
    cellGet (setCell m i j x) i' j' = cellGet m i' j' := by
  by_cases hii : i = i'
  · subst hii
    have hjj : j ≠ j' := fun hh => h ⟨rfl, hh⟩
    unfold cellGet setCell
    rw [modifyRow_get?_eq]
    cases hrow : m.get? i with
    | none => rfl
    | some row =>
      simp only [Option.map_some', Option.some_bind]
      exact listSet_get?_ne row j j' (some x) hjj
  · unfold cellGet setCell
    rw [modifyRow_get?_ne _ _ _ _ hii]

theorem foldl_pair_split {α β γ : Type} (f : α → γ → α) (g : β → γ → β)
    (l : List γ) (ab : α × β) :
    l.foldl (fun p c => (f p.1 c, g p.2 c)) ab = (l.foldl f ab.1, l.foldl g ab.2) := by
  induction l generalizing ab with
  | nil => rfl
  | cons c l ih => simpa using ih (f ab.1 c, g ab.2 c)

theorem foldl_setCell_length (ki kj : Sample → ℕ) (fv : Sample → ℚ)
    (rs : List Sample) (m : List (List (Option ℚ))) :
    (rs.foldl (fun acc r => setCell acc (ki r) (kj r) (fv r)) m).length = m.length := by
  induction rs generalizing m with
  | nil => rfl
  | cons r rest ih => simpa [setCell_length] using ih (setCell m (ki r) (kj r) (fv r))

theorem foldl_setCell_cellGet (ki kj : Sample → ℕ) (fv : Sample → ℚ)
    (val : ℕ → ℕ → ℚ) (N M : ℕ) (rs : List Sample) :
    ∀ (m : List (List (Option ℚ))),
      m.length = N → (∀ row ∈ m, row.length = M) →
      (∀ r ∈ rs, ki r < N ∧ kj r < M ∧ fv r = val (ki r) (kj r)) →
      ∀ i j,
        cellGet (rs.foldl (fun acc r => setCell acc (ki r) (kj r) (fv r)) m) i j =
          if ∃ r ∈ rs, ki r = i ∧ kj r = j then some (some (val i j))
          else cellGet m i j := by
  induction rs with
  | nil =>
    intro m _ _ _ i j
    simp
  | cons r rest ih =>
    intro m hlen hrow hkeys i j
    have hkr := hkeys r (List.mem_cons_self r rest)
    have hlen' : (setCell m (ki r) (kj r) (fv r)).length = N := by
      rw [setCell_length]; exact hlen
    have hrow' := setCell_rows m (ki r) (kj r) (fv r) M hrow
    have hkeys' : ∀ x ∈ rest, ki x < N ∧ kj x < M ∧ fv x = val (ki x) (kj x) :=
      fun x hx => hkeys x (List.mem_cons_of_mem r hx)
    simp only [List.foldl_cons]
    rw [ih (setCell m (ki r) (kj r) (fv r)) hlen' hrow' hkeys' i j]
    by_cases hrest : ∃ x ∈ rest, ki x = i ∧ kj x = j
    · rw [if_pos hrest]
      obtain ⟨x, hx, hxy⟩ := hrest
      rw [if_pos ⟨x, List.mem_cons_of_mem r hx, hxy⟩]
    · rw [if_neg hrest]
      by_cases hr : ki r = i ∧ kj r = j
      · rw [if_pos ⟨r, List.mem_cons_self r rest, hr⟩]
        obtain ⟨h1, h2⟩ := hr
        subst h1
        subst h2
        rw [cellGet_setCell_eq m _ _ _ (hlen ▸ hkr.1)
          (fun row hrowm => (hrow row hrowm) ▸ hkr.2.1)]
        rw [hkr.2.2]
      · rw [if_neg (by
          rintro ⟨x, hx, hxy⟩
          rcases List.mem_cons.mp hx with rfl | hx'
          · exact hr hxy
          · exact hrest ⟨x, hx', hxy⟩)]
        exact cellGet_setCell_ne m _ _ i j _ hr

theorem emptyMatrix_length (R C : ℕ) : (emptyMatrix R C).length = R := by
  simp [emptyMatrix]

theorem emptyMatrix_rows (R C : ℕ) :
    ∀ row ∈ emptyMatrix R C, row.length = C := by
  intro row h
  rw [List.eq_of_mem_replicate h]
  simp

theorem cellGet_eq_none {α : Type} (m : List (List α)) (N M : ℕ) (i j : ℕ)
    (hm : m.length = N) (hrows : ∀ row ∈ m, row.length = M)
    (h : ¬(i < N ∧ j < M)) : cellGet m i j = none := by
  by_cases hi : i < N
  · have hj : ¬(j < M) := fun hj => h ⟨hi, hj⟩
    have hi' : i < m.length := hm ▸ hi
    unfold cellGet
    rw [List.get?_eq_get hi']
    simp only [Option.some_bind]
    refine List.get?_eq_none.mpr ?_
    rw [hrows _ (List.get_mem m i hi')]
    exact Nat.le_of_not_lt hj
  · unfold cellGet
    rw [List.get?_eq_none.mpr (by rw [hm]; exact Nat.le_of_not_lt hi)]
    rfl

theorem matrix_ext {α : Type} (m₁ m₂ : List (List α)) (hlen : m₁.length = m₂.length)
    (h : ∀ i j, cellGet m₁ i j = cellGet m₂ i j) : m₁ = m₂ := by
  apply List.ext_get?
  intro i
  cases h₁ : m₁.get? i with
  | none =>
    have hle : m₁.length ≤ i := List.get?_eq_none.mp h₁
    exact (List.get?_eq_none.mpr (hlen ▸ hle)).symm
  | some r₁ =>
    have hi : i < m₁.length := by
      by_contra hcon
      rw [List.get?_eq_none.mpr (Nat.le_of_not_lt hcon)] at h₁
      exact Option.noConfusion h₁
    have hi₂ : i < m₂.length := hlen ▸ hi
    have h₂ : m₂.get? i = some (m₂.get ⟨i, hi₂⟩) := List.get?_eq_get hi₂
    rw [h₂]
    congr 1
    apply List.ext_get?
    intro j
    have hcell := h i j
    unfold cellGet at hcell
    rw [h₁, h₂] at hcell
    simpa using hcell

theorem sortedDistinct_sorted (l : List ℚ) :
    List.Sorted (· ≤ ·) (sortedDistinct l) :=
  List.sorted_insertionSort _ _

theorem sortedDistinct_nodup (l : List ℚ) : (sortedDistinct l).Nodup :=
  (List.perm_insertionSort _ _).nodup_iff.mpr (List.nodup_dedup l)

theorem mem_sortedDistinct (l : List ℚ) (x : ℚ) :
    x ∈ sortedDistinct l ↔ x ∈ l :=
  (List.perm_insertionSort _ _).mem_iff.trans List.mem_dedup

theorem sortedDistinct_eq (l ax : List ℚ) (hs : List.Sorted (· < ·) ax)
    (hm : ∀ x, x ∈ l ↔ x ∈ ax) : sortedDistinct l = ax := by
  refine List.eq_of_perm_of_sorted ?_ (sortedDistinct_sorted l)
    (hs.imp fun h => le_of_lt h)
  refine (List.perm_ext_iff_of_nodup (sortedDistinct_nodup l) hs.nodup).mpr ?_
  intro x
  rw [mem_sortedDistinct]
  exact hm x

theorem nodup_indexOf_get (l : List ℚ) (hnd : l.Nodup) (i : ℕ) (h : i < l.length) :
    List.indexOf (l.get ⟨i, h⟩) l = i := by
  have hmem : l.get ⟨i, h⟩ ∈ l := List.get_mem l i h
  have hlt : List.indexOf (l.get ⟨i, h⟩) l < l.length := List.indexOf_lt_length.mpr hmem
  have heq : l.get ⟨List.indexOf (l.get ⟨i, h⟩) l, hlt⟩ = l.get ⟨i, h⟩ :=
    List.indexOf_get hlt
  have := List.nodup_iff_injective_get.mp hnd heq
  exact congrArg Fin.val this

theorem get?_getD_indexOf (l : List ℚ) (a : ℚ) (h : a ∈ l) :
    (l.get? (List.indexOf a l)).getD 0 = a := by
  rw [List.indexOf_get? h]
  rfl

theorem cellGet_map_some (m : List (List ℚ)) (i j : ℕ) :
    cellGet (m.map (List.map some)) i j = (cellGet m i j).map some := by
  unfold cellGet
  rw [List.get?_eq_getElem?, List.getElem?_map, List.get?_eq_getElem?]
  cases m[i]? with
  | none => rfl
  | some row =>
    simp only [Option.map_some', Option.some_bind]
    rw [List.get?_eq_getElem?, List.getElem?_map, List.get?_eq_getElem?]

theorem heatSamples_mem (lib : NumKernel) (strike ttm rate : ℚ)
    (spots vols : List ℚ) (r : Sample) :
    r ∈ heatSamples lib strike ttm rate spots vols ↔
      ∃ v ∈ vols, ∃ s ∈ spots, r = mkSample lib strike ttm rate s v := by
  simp only [heatSamples, List.mem_flatMap, List.mem_map]
  constructor
  · rintro ⟨v, hv, s, hs, rfl⟩
    exact ⟨v, hv, s, hs, rfl⟩
  · rintro ⟨v, hv, s, hs, rfl⟩
    exact ⟨v, hv, s, hs, rfl⟩

theorem heatSamples_spot_col (lib : NumKernel) (strike ttm rate : ℚ)
    (spots vols : List ℚ) (hv : vols ≠ []) (x : ℚ) :
    x ∈ (heatSamples lib strike ttm rate spots vols).map Sample.spot ↔ x ∈ spots := by
  rw [List.mem_map]
  constructor
  · rintro ⟨r, hr, rfl⟩
    rw [heatSamples_mem] at hr
    obtain ⟨v, hvv, s, hs, rfl⟩ := hr
    exact hs
  · intro hx
    obtain ⟨v, hvv⟩ := List.exists_mem_of_ne_nil vols hv
    exact ⟨mkSample lib strike ttm rate x v,
      (heatSamples_mem lib strike ttm rate spots vols _).mpr ⟨v, hvv, x, hx, rfl⟩, rfl⟩

theorem heatSamples_vol_col (lib : NumKernel) (strike ttm rate : ℚ)
    (spots vols : List ℚ) (hs : spots ≠ []) (x : ℚ) :
    x ∈ (heatSamples lib strike ttm rate spots vols).map Sample.vol ↔ x ∈ vols := by
  rw [List.mem_map]
  constructor
  · rintro ⟨r, hr, rfl⟩
    rw [heatSamples_mem] at hr
    obtain ⟨v, hvv, s, hss, rfl⟩ := hr
    exact hvv
  · intro hx
    obtain ⟨s, hss⟩ := List.exists_mem_of_ne_nil spots hs
    exact ⟨mkSample lib strike ttm rate s x,
      (heatSamples_mem lib strike ttm rate spots vols _).mpr ⟨x, hx, s, hss, rfl⟩, rfl⟩

theorem reconMatrices_split (spots vols : List ℚ) (rows : List Sample) :
    reconMatrices spots vols rows =
      (rows.foldl (fun acc r =>
          setCell acc (List.indexOf r.vol vols) (List.indexOf r.spot spots) r.call)
          (emptyMatrix vols.length spots.length),
        rows.foldl (fun acc r =>
          setCell acc (List.indexOf r.vol vols) (List.indexOf r.spot spots) r.put)
          (emptyMatrix vols.length spots.length)) := by
  unfold reconMatrices
  exact foldl_pair_split
    (fun acc r =>
      setCell acc (List.indexOf r.vol vols) (List.indexOf r.spot spots) r.call)
    (fun acc r =>
      setCell acc (List.indexOf r.vol vols) (List.indexOf r.spot spots) r.put)
    rows (emptyMatrix vols.length spots.length, emptyMatrix vols.length spots.length)

theorem recon_component_eq (lib : NumKernel) (strike ttm rate : ℚ)
    (spots vols : List ℚ) (rs : List Sample)
    (hsort_s : List.Sorted (· < ·) spots) (hsort_v : List.Sorted (· < ·) vols)
    (hmem : ∀ r ∈ rs, ∃ v ∈ vols, ∃ s ∈ spots, r = mkSample lib strike ttm rate s v)
    (hcov : ∀ v ∈ vols, ∀ s ∈ spots, mkSample lib strike ttm rate s v ∈ rs)
    (fv : Sample → ℚ) (cf : BSResult → ℚ)
    (hfv : ∀ s v : ℚ, fv (mkSample lib strike ttm rate s v) =
      cf (BlackScholes.run lib ttm strike s v rate))
    (target : List (List ℚ))
    (htlen : target.length = vols.length)
    (htrows : ∀ row ∈ target, row.length = spots.length)
    (htcell : ∀ i j vi sj, vols.get? i = some vi → spots.get? j = some sj →
      cellGet target i j = some (cf (BlackScholes.run lib ttm strike sj vi rate))) :
    rs.foldl (fun acc r =>
        setCell acc (List.indexOf r.vol vols) (List.indexOf r.spot spots) (fv r))
        (emptyMatrix vols.length spots.length) =
      target.map (List.map some) := by
  have htlen' : (target.map (List.map some)).length = vols.length := by
    rw [List.length_map, htlen]
  have htrows' : ∀ row ∈ target.map (List.map some), row.length = spots.length := by
    intro row hrow
    rw [List.mem_map] at hrow
    obtain ⟨row₀, h₀, rfl⟩ := hrow
    rw [List.length_map]
    exact htrows row₀ h₀
  have hkeys : ∀ r ∈ rs, List.indexOf r.vol vols < vols.length ∧
      List.indexOf r.spot spots < spots.length ∧
      fv r = cf (BlackScholes.run lib ttm strike
        ((spots.get? (List.indexOf r.spot spots)).getD 0)
        ((vols.get? (List.indexOf r.vol vols)).getD 0) rate) := by
    intro r hr
    obtain ⟨v, hv, s, hs, rfl⟩ := hmem r hr
    refine ⟨?_, ?_, ?_⟩
    · exact List.indexOf_lt_length.mpr hv
    · exact List.indexOf_lt_length.mpr hs
    · rw [hfv]
      rw [show (mkSample lib strike ttm rate s v).vol = v from rfl,
        show (mkSample lib strike ttm rate s v).spot = s from rfl,
        get?_getD_indexOf spots s hs, get?_getD_indexOf vols v hv]
  apply matrix_ext
  · rw [foldl_setCell_length, emptyMatrix_length, htlen']
  · intro i j
    rw [foldl_setCell_cellGet (fun r => List.indexOf r.vol vols)
      (fun r => List.indexOf r.spot spots) fv
      (fun i j => cf (BlackScholes.run lib ttm strike
        ((spots.get? j).getD 0) ((vols.get? i).getD 0) rate))
      vols.length spots.length rs _ (emptyMatrix_length _ _) (emptyMatrix_rows _ _)
      hkeys i j]
    by_cases hij : i < vols.length ∧ j < spots.length
    · obtain ⟨hi, hj⟩ := hij
      have hvi : vols.get? i = some (vols.get ⟨i, hi⟩) := List.get?_eq_get hi
      have hsj : spots.get? j = some (spots.get ⟨j, hj⟩) := List.get?_eq_get hj
      have hin : mkSample lib strike ttm rate (spots.get ⟨j, hj⟩) (vols.get ⟨i, hi⟩) ∈ rs :=
        hcov _ (List.get_mem vols i hi) _ (List.get_mem spots j hj)
      rw [if_pos ⟨_, hin,
        by
          rw [show (mkSample lib strike ttm rate (spots.get ⟨j, hj⟩)
            (vols.get ⟨i, hi⟩)).vol = vols.get ⟨i, hi⟩ from rfl]
          exact nodup_indexOf_get vols hsort_v.nodup i hi,
        by
          rw [show (mkSample lib strike ttm rate (spots.get ⟨j, hj⟩)
            (vols.get ⟨i, hi⟩)).spot = spots.get ⟨j, hj⟩ from rfl]
          exact nodup_indexOf_get spots hsort_s.nodup j hj⟩]
      rw [cellGet_map_some, htcell i j _ _ hvi hsj, hvi, hsj]
      rfl
    · rw [if_neg ?_]
      · rw [cellGet_eq_none (emptyMatrix vols.length spots.length)
            vols.length spots.length i j (emptyMatrix_length _ _)
            (emptyMatrix_rows _ _) hij,
          cellGet_eq_none (target.map (List.map some)) vols.length spots.length
            i j htlen' htrows' hij]
      · rintro ⟨r, hr, h1, h2⟩
        obtain ⟨v, hv, s, hs, rfl⟩ := hmem r hr
        refine hij ⟨?_, ?_⟩
        · rw [← h1]
          exact List.indexOf_lt_length.mpr hv
        · rw [← h2]
          exact List.indexOf_lt_length.mpr hs

/-- C6: reconstruction round-trip.  For every surface generated from valid
inputs, reconstructing from any permutation of its flat
`(spot, vol, call, put)` sample list yields exactly the generated axes and
(up to the `some`-marking of filled cells) exactly the generated call and put
matrices — the sweep of `plotting.py` (lines 93-121) and the rebuild of
`history.py` (lines 54-70) are inverse regardless of sample order. -/
theorem c6_reconstruction_round_trip (lib : NumKernel)
    (strike ttm rate a b c d : ℚ) (n : ℕ)
    (hn : 2 ≤ n) (ha : 0 < a) (hab : a < b) (hc : 0 < c) (hcd : c < d)
    (rs : List Sample)
    (hperm : List.Perm rs
      (heatSamples lib strike ttm rate (linspace a b n) (linspace c d n))) :
    reconstruct rs =
      { spots := linspace a b n
        vols := linspace c d n
        callM := (callMatrix lib strike ttm rate
          (linspace a b n) (linspace c d n)).map (List.map some)
        putM := (putMatrix lib strike ttm rate
          (linspace a b n) (linspace c d n)).map (List.map some) } := by
  have hsort_s := sorted_linspace a b n hn hab
  have hsort_v := sorted_linspace c d n hn hcd
  have hne_s : linspace a b n ≠ [] := by
    intro hnil
    have hl := length_linspace a b n
    rw [hnil] at hl
    simp at hl
    omega
  have hne_v : linspace c d n ≠ [] := by
    intro hnil
    have hl := length_linspace c d n
    rw [hnil] at hl
    simp at hl
    omega
  have hax1 : (reconAxes rs).1 = linspace a b n := by
    apply sortedDistinct_eq _ _ hsort_s
    intro x
    rw [(hperm.map Sample.spot).mem_iff]
    exact heatSamples_spot_col lib strike ttm rate _ _ hne_v x
  have hax2 : (reconAxes rs).2 = linspace c d n := by
    apply sortedDistinct_eq _ _ hsort_v
    intro x
    rw [(hperm.map Sample.vol).mem_iff]
    exact heatSamples_vol_col lib strike ttm rate _ _ hne_s x
  have hmem : ∀ r ∈ rs, ∃ v ∈ linspace c d n, ∃ s ∈ linspace a b n,
      r = mkSample lib strike ttm rate s v := fun r hr =>
    (heatSamples_mem lib strike ttm rate _ _ r).mp (hperm.mem_iff.mp hr)
  have hcov : ∀ v ∈ linspace c d n, ∀ s ∈ linspace a b n,
      mkSample lib strike ttm rate s v ∈ rs := fun v hv s hs =>
    hperm.mem_iff.mpr
      ((heatSamples_mem lib strike ttm rate _ _ _).mpr ⟨v, hv, s, hs, rfl⟩)
  have hcall := recon_component_eq lib strike ttm rate
    (linspace a b n) (linspace c d n) rs hsort_s hsort_v hmem hcov
    Sample.call BSResult.call_price (fun s v => rfl)
    (callMatrix lib strike ttm rate (linspace a b n) (linspace c d n))
    (callMatrix_length lib strike ttm rate _ _)
    (callMatrix_rows lib strike ttm rate _ _)
    (fun i j vi sj hv hs => callMatrix_cell lib strike ttm rate _ _ i j vi sj hv hs)
  have hput := recon_component_eq lib strike ttm rate
    (linspace a b n) (linspace c d n) rs hsort_s hsort_v hmem hcov
    Sample.put BSResult.put_price (fun s v => rfl)
    (putMatrix lib strike ttm rate (linspace a b n) (linspace c d n))
    (putMatrix_length lib strike ttm rate _ _)
    (putMatrix_rows lib strike ttm rate _ _)
    (fun i j vi sj hv hs => putMatrix_cell lib strike ttm rate _ _ i j vi sj hv hs)
  unfold reconstruct
  rw [hax1, hax2, reconMatrices_split]
  simp only
  rw [hcall, hput]

theorem c6_witness :
    reconstruct ((heatSamples witKernel 100 1 0.05
        (linspace 80 120 2) (linspace (1/10) (3/10) 2)).reverse) =
      { spots := linspace 80 120 2
        vols := linspace (1/10) (3/10) 2
        callM := (callMatrix witKernel 100 1 0.05
          (linspace 80 120 2) (linspace (1/10) (3/10) 2)).map (List.map some)
        putM := (putMatrix witKernel 100 1 0.05
          (linspace 80 120 2) (linspace (1/10) (3/10) 2)).map (List.map some) } :=
  c6_reconstruction_round_trip witKernel 100 1 0.05 80 120 (1/10) (3/10) 2
    (by norm_num) (by norm_num) (by norm_num) (by norm_num) (by norm_num)
    _ (List.reverse_perm _)
